import Mathlib

/-!
Shallow embedding of `loco_mujoco/utils/reward.py`: the reward-strategy
interface and its built-in variants.

Modelling conventions:
* numpy float arrays (observations, actions) become `List ℚ` for the
  strategies whose arithmetic is rational (bounds checks, sums, absolute
  values, squares), and `List ℝ` for the strategies that apply `np.exp`
  (`TargetVelocityReward`, `MultiTargetVelocityReward`,
  `VelocityVectorReward`), since `Real.exp` has no rational counterpart;
* each Python class becomes a structure holding its constructor
  configuration; `__call__` becomes a `call` function taking
  `(state, action, next_state, absorbing)`; the one stateful variant
  (`ModulationDifferencePenalty`) returns the reward together with the
  updated strategy value;
* the string-selected penalty function (`'abs'` / `'squared'`) becomes the
  closed type `FuncType`, and the constructors that validate the selector
  become `mk...` functions returning `Except String _`, mirroring
  `raise Exception(f'{func_type} is not a valid function type!')`;
* Python's `state[idx]` becomes `List.getD state idx 0`: an out-of-range
  index is a caller contract breach in the source, so the junk value is
  never relied on;
* the external collaborators (`mat2angle_xy`, reward callbacks, cycle
  predictors, the action-space modulator) are function arguments / fields,
  as the source imports or receives them.
-/

/-- Penalty-function selector resolved at construction: the source stores
`np.abs` for `'abs'` and `np.square` for `'squared'`. -/
inductive FuncType where
  | abs : FuncType
  | squared : FuncType
deriving DecidableEq, Repr

/-- Elementwise application of the stored penalty function. -/
def FuncType.apply : FuncType → ℚ → ℚ
  | .abs, x => |x|
  | .squared, x => x ^ 2

/-- Resolution of the `func_type` string shared by the three constructors
that accept one: any string other than `'abs'` or `'squared'` raises. -/
def resolveFuncType (func_type : String) : Except String FuncType :=
  if func_type = "abs" then .ok .abs
  else if func_type = "squared" then .ok .squared
  else .error (func_type ++ " is not a valid function type!")

/-- Numpy boolean arrays coerce to `0` / `1` under arithmetic. -/
def boolToRat (b : Prop) [Decidable b] : ℚ := if b then 1 else 0

/-- Configuration of `OutOfBoundsActionCost` (bounds broadcast over the
action vector, as in the scalar-bounds use of the source). -/
structure OutOfBoundsActionCost where
  lower_bound : ℚ
  upper_bound : ℚ
  reward_scale : ℚ
  const_cost : ℚ
  func : FuncType

/-- Constructor of `OutOfBoundsActionCost`: validates `func_type` before
anything else is usable, defaults `reward_scale=1.0`, `const_cost=0.0`
being supplied by the caller here. -/
def OutOfBoundsActionCost.mk? (lower_bound upper_bound reward_scale const_cost : ℚ)
    (func_type : String) : Except String OutOfBoundsActionCost :=
  (resolveFuncType func_type).map
    (fun f => ⟨lower_bound, upper_bound, reward_scale, const_cost, f⟩)

/-- Embedding of `OutOfBoundsActionCost.__call__`:
`lower_cost = (lower_bound - action + const_cost) * (action < lower_bound)`,
`upper_cost = (action - upper_bound + const_cost) * (action > upper_bound)`,
result `-1 * reward_scale * np.sum(func(lower_cost + upper_cost))`. -/
def OutOfBoundsActionCost.call (c : OutOfBoundsActionCost)
    (state action next_state : List ℚ) (absorbing : Bool) : ℚ :=
  let lower_cost := action.map
    (fun a => (c.lower_bound - a + c.const_cost) * boolToRat (a < c.lower_bound))
  let upper_cost := action.map
    (fun a => (a - c.upper_bound + c.const_cost) * boolToRat (a > c.upper_bound))
  (-1) * c.reward_scale * ((lower_cost.zipWith (· + ·) upper_cost).map c.func.apply).sum

/-- Configuration of `ActionCost` (reference mean is a vector). -/
structure ActionCost where
  action_mean : List ℚ
  reward_scale : ℚ
  func : FuncType

/-- Constructor of `ActionCost`: validates `func_type`. -/
def ActionCost.mk? (action_mean : List ℚ) (reward_scale : ℚ)
    (func_type : String) : Except String ActionCost :=
  (resolveFuncType func_type).map (fun f => ⟨action_mean, reward_scale, f⟩)

/-- Embedding of `ActionCost.__call__`:
`-1 * reward_scale * np.sum(func(action - action_mean))`. -/
def ActionCost.call (c : ActionCost)
    (state action next_state : List ℚ) (absorbing : Bool) : ℚ :=
  -1 * c.reward_scale * ((action.zipWith (· - ·) c.action_mean).map c.func.apply).sum

/-- Configuration of `InBoundsBonus`. -/
structure InBoundsBonus where
  lower_bound : ℚ
  upper_bound : ℚ
  reward_scale : ℚ
  bonus_val : ℚ

/-- Embedding of `InBoundsBonus.__call__`:
`bonus = bonus_val * ((upper_bound > action) * (action > lower_bound))`,
result `reward_scale * np.sum(bonus)`. -/
def InBoundsBonus.call (c : InBoundsBonus)
    (state action next_state : List ℚ) (absorbing : Bool) : ℚ :=
  let bonus := action.map
    (fun a => c.bonus_val * (boolToRat (c.upper_bound > a) * boolToRat (a > c.lower_bound)))
  c.reward_scale * bonus.sum

/-- A reward function that always returns 0 (`NoReward`). -/
structure NoReward where

/-- Embedding of `NoReward.__call__`. -/
def NoReward.call (c : NoReward) (state action next_state : List ℚ)
    (absorbing : Bool) : ℚ :=
  0

/-- Configuration of `PosReward`. -/
structure PosReward where
  pos_idx : ℕ

/-- Embedding of `PosReward.__call__`: `pos = state[self._pos_idx]`. -/
def PosReward.call (c : PosReward) (state action next_state : List ℚ)
    (absorbing : Bool) : ℚ :=
  state.getD c.pos_idx 0

/-- Configuration of `CustomReward`: an optional reward callback. -/
structure CustomReward where
  reward_callback : Option (List ℚ → List ℚ → List ℚ → ℚ)

/-- Embedding of `CustomReward.__call__`: delegate to the callback if
present, else return 0. -/
def CustomReward.call (c : CustomReward) (state action next_state : List ℚ)
    (absorbing : Bool) : ℚ :=
  match c.reward_callback with
  | some f => f state action next_state
  | none => 0

/-- Configuration and mutable state of `ModulationDifferencePenalty`:
the collaborators are the cycle-percentage predictors
(`predict_cycle_percentage`) and the action-space modulator
(`modulate_action`); `cycle_progress` is the cached vector, initialised
in the constructor to `np.zeros(len(cycle_percentage_predictors))`. -/
structure ModulationDifferencePenalty where
  cycle_percentage_predictors : List (List ℚ → ℚ)
  action_space_modulator : List ℚ → List ℚ → List ℚ
  cycle_progress : List ℚ
  reward_scale : ℚ
  func : FuncType

/-- Constructor of `ModulationDifferencePenalty`: validates `func_type`
and initialises the cycle-progress cache with zeros. -/
def ModulationDifferencePenalty.mk? (predictors : List (List ℚ → ℚ))
    (modulator : List ℚ → List ℚ → List ℚ) (reward_scale : ℚ)
    (func_type : String) : Except String ModulationDifferencePenalty :=
  (resolveFuncType func_type).map
    (fun f => ⟨predictors, modulator, List.replicate predictors.length 0, reward_scale, f⟩)

/-- Embedding of `ModulationDifferencePenalty.__call__`: overwrites
`self.cycle_progress` with the predictors' outputs on the current state,
modulates the action, and penalises the modulation difference. Returns
the reward together with the updated strategy value (the mutation of
`self`). -/
def ModulationDifferencePenalty.call (c : ModulationDifferencePenalty)
    (state action next_state : List ℚ) (absorbing : Bool) :
    ℚ × ModulationDifferencePenalty :=
  let cycle_progress := c.cycle_percentage_predictors.map
    (fun channel => channel state)
  let modulated_action := c.action_space_modulator action cycle_progress
  let modulated_action_diff := action.zipWith (· - ·) modulated_action
  ((-1) * c.reward_scale * (modulated_action_diff.map c.func.apply).sum,
    { c with cycle_progress := cycle_progress })

/-- Configuration of `TargetVelocityReward` (real-valued: `np.exp`). -/
structure TargetVelocityReward where
  target_vel : ℝ
  x_vel_idx : ℕ

/-- Embedding of `TargetVelocityReward.__call__`:
`np.exp(-np.square(x_vel - target_vel))`. -/
noncomputable def TargetVelocityReward.call (c : TargetVelocityReward)
    (state action next_state : List ℝ) (absorbing : Bool) : ℝ :=
  let x_vel := state.getD c.x_vel_idx 0
  Real.exp (-((x_vel - c.target_vel) ^ 2))

/-- First byte produced by `np.packbits(bits, bitorder='big')`: bit `i`
(nonzero entry treated as a set bit) lands at weight `2^(7-i)`; missing
trailing bits of the byte are zero padding. -/
def packbitsByte (bits : List ℕ) : ℕ :=
  ((bits.take 8).enum.map (fun p => (min p.2 1) * 2 ^ (7 - p.1))).sum

/-- The decoding `MultiTargetVelocityReward.__call__` performs on the
trailing env-id entries: pack the bits into a byte, then shift right by
`8 - env_id.shape[0]`. -/
def decodeBits (bits : List ℕ) : ℕ :=
  packbitsByte bits >>> (8 - bits.length)

/-- Big-endian (most-significant-bit-first) value of a bit list: the
interpretation the spec prescribes for the env-id vector. -/
def bigEndianVal (bits : List ℕ) : ℕ :=
  bits.foldl (fun acc b => 2 * acc + b) 0

/-- Truncation toward zero, the conversion `astype(int)` applies to the
floating-point env-id entries. -/
noncomputable def truncToInt (x : ℝ) : ℤ :=
  if 0 ≤ x then ⌊x⌋ else ⌈x⌉

/-- An env-id observation entry as the bit `np.packbits` sees: `astype(int)`
then nonzero means a set bit. -/
noncomputable def envBit (x : ℝ) : ℕ :=
  if truncToInt x = 0 then 0 else 1

/-- Configuration of `MultiTargetVelocityReward`. -/
structure MultiTargetVelocityReward where
  target_vel : ℝ
  env_id_len : ℕ
  scalings : List ℝ
  x_vel_idx : ℕ

/-- Embedding of `MultiTargetVelocityReward.__call__`: slice the trailing
`env_id_len` entries (`state[-env_id_len:]`, which is the whole list when
`env_id_len = 0`), decode them as a packed big-endian bit vector, index
the scalings, and reward as `TargetVelocityReward` against the scaled
target. -/
noncomputable def MultiTargetVelocityReward.call (c : MultiTargetVelocityReward)
    (state action next_state : List ℝ) (absorbing : Bool) : ℝ :=
  let x_vel := state.getD c.x_vel_idx 0
  let env_id := if c.env_id_len = 0 then state
    else state.drop (state.length - c.env_id_len)
  let ind := decodeBits (env_id.map envBit)
  let scaling := c.scalings.getD ind 0
  let target_vel := c.target_vel * scaling
  Real.exp (-((x_vel - target_vel) ^ 2))

/-- Configuration of `VelocityVectorReward`: indices of the planar
velocities, of the 9 observation entries holding the row-major rotation
matrix, and of the goal speed. -/
structure VelocityVectorReward where
  x_vel_idx : ℕ
  y_vel_idx : ℕ
  rot_mat_idx : List ℕ
  goal_vel_idx : ℕ

/-- Euclidean norm of a planar vector, `np.linalg.norm` on a 2-array. -/
noncomputable def norm2 (v : ℝ × ℝ) : ℝ :=
  Real.sqrt (v.1 ^ 2 + v.2 ^ 2)

/-- Embedding of `VelocityVectorReward.__call__`. The angle extraction
`mat2angle_xy` is an external collaborator (imported from
`loco_mujoco.utils.math`, outside this module), so it is a parameter;
it receives the rotation-matrix entries gathered from the observation. -/
noncomputable def VelocityVectorReward.call (mat2angle_xy : List ℝ → ℝ)
    (c : VelocityVectorReward) (state action next_state : List ℝ)
    (absorbing : Bool) : ℝ :=
  let curr_velocity_xy : ℝ × ℝ := (state.getD c.x_vel_idx 0, state.getD c.y_vel_idx 0)
  let rot_mat := c.rot_mat_idx.map (fun i => state.getD i 0)
  let angle := mat2angle_xy rot_mat - Real.pi / 2
  let norm_x := Real.cos angle
  let norm_y := Real.sin angle
  let goal_speed := state.getD c.goal_vel_idx 0
  let des_vel : ℝ × ℝ := (goal_speed * norm_x, goal_speed * norm_y)
  Real.exp ((-5.0) * norm2 (curr_velocity_xy.1 - des_vel.1, curr_velocity_xy.2 - des_vel.2))

/-- Inherited `RewardInterface.reset_state`, a no-op, for `NoReward`. -/
def NoReward.reset_state (c : NoReward) : NoReward := c

/-- Inherited no-op `reset_state` for `PosReward`. -/
def PosReward.reset_state (c : PosReward) : PosReward := c

/-- Inherited no-op `reset_state` for `CustomReward`. -/
def CustomReward.reset_state (c : CustomReward) : CustomReward := c

/-- Inherited no-op `reset_state` for `TargetVelocityReward`. -/
def TargetVelocityReward.reset_state (c : TargetVelocityReward) :
    TargetVelocityReward := c

/-- Inherited no-op `reset_state` for `MultiTargetVelocityReward`. -/
def MultiTargetVelocityReward.reset_state (c : MultiTargetVelocityReward) :
    MultiTargetVelocityReward := c

/-- Inherited no-op `reset_state` for `VelocityVectorReward`. -/
def VelocityVectorReward.reset_state (c : VelocityVectorReward) :
    VelocityVectorReward := c

/-- Inherited no-op `reset_state` for `OutOfBoundsActionCost`. -/
def OutOfBoundsActionCost.reset_state (c : OutOfBoundsActionCost) :
    OutOfBoundsActionCost := c

/-- Inherited no-op `reset_state` for `ActionCost`. -/
def ActionCost.reset_state (c : ActionCost) : ActionCost := c

/-- Inherited no-op `reset_state` for `InBoundsBonus`. -/
def InBoundsBonus.reset_state (c : InBoundsBonus) : InBoundsBonus := c

/-- Inherited no-op `reset_state` for `ModulationDifferencePenalty`: the
subclass defines no override, so the cached cycle progress is untouched. -/
def ModulationDifferencePenalty.reset_state (c : ModulationDifferencePenalty) :
    ModulationDifferencePenalty := c

/-- The penalty function vanishes at `0`. -/
theorem FuncType.apply_zero (f : FuncType) : f.apply 0 = 0 := by
  cases f <;> simp [FuncType.apply]

/-- The penalty function is nonnegative. -/
theorem FuncType.apply_nonneg (f : FuncType) (x : ℚ) : 0 ≤ f.apply x := by
  cases f <;> simp [FuncType.apply] <;> positivity

/-- The penalty function is positive away from `0`. -/
theorem FuncType.apply_pos (f : FuncType) (x : ℚ) (hx : x ≠ 0) : 0 < f.apply x := by
  cases f
  · simpa [FuncType.apply] using abs_pos.mpr hx
  · simpa [FuncType.apply] using pow_pos (abs_pos.mpr hx) 2 |>.trans_eq (by rw [sq_abs])

/-- Elementwise combination of two maps over the same list. -/
theorem zipWith_map_same {α β γ : Type} (f : β → β → γ) (g h : α → β) (l : List α) :
    List.zipWith f (l.map g) (l.map h) = l.map (fun a => f (g a) (h a)) := by
  rw [List.zipWith_map, List.zipWith_same]

/-- Fold of weighted boolean indicators into a count. -/
theorem sum_map_indicator (v : ℚ) (p q : ℚ → Prop) [DecidablePred p] [DecidablePred q]
    (l : List ℚ) :
    (l.map (fun a => v * (boolToRat (p a) * boolToRat (q a)))).sum =
      v * (l.countP (fun a => decide (p a) && decide (q a)) : ℚ) := by
  induction l with
  | nil => simp
  | cons a t ih =>
    rw [List.map_cons, List.sum_cons, ih, List.countP_cons]
    by_cases hp : p a <;> by_cases hq : q a <;>
      simp [boolToRat, hp, hq] <;> push_cast <;> ring

/-- C1: with default `const_cost = 0` and `reward_scale = 1`,
`OutOfBoundsActionCost.call` is `0` when every action component lies in
`[lower_bound, upper_bound]` and strictly negative when some component
lies strictly outside; in general it equals
`-reward_scale * Σ func((lower_bound - a + const_cost if a < lower_bound else 0)
+ (a - upper_bound + const_cost if a > upper_bound else 0))`. -/
theorem outOfBoundsActionCost_spec (c : OutOfBoundsActionCost)
    (state action next_state : List ℚ) (absorbing : Bool) :
    (c.call state action next_state absorbing =
      -(c.reward_scale *
        (action.map (fun a =>
          c.func.apply
            ((if a < c.lower_bound then c.lower_bound - a + c.const_cost else 0) +
             (if c.upper_bound < a then a - c.upper_bound + c.const_cost else 0)))).sum))
    ∧ (c.const_cost = 0 → c.reward_scale = 1 →
        (((∀ a ∈ action, c.lower_bound ≤ a ∧ a ≤ c.upper_bound) →
            c.call state action next_state absorbing = 0) ∧
         ((∃ a ∈ action, a < c.lower_bound ∨ c.upper_bound < a) →
            c.call state action next_state absorbing < 0))) := by
  have hkey : c.call state action next_state absorbing =
      -(c.reward_scale *
        (action.map (fun a =>
          c.func.apply
            ((if a < c.lower_bound then c.lower_bound - a + c.const_cost else 0) +
             (if c.upper_bound < a then a - c.upper_bound + c.const_cost else 0)))).sum) := by
    unfold OutOfBoundsActionCost.call
    dsimp only
    rw [zipWith_map_same, List.map_map]
    rw [show (c.func.apply ∘ fun a =>
        (c.lower_bound - a + c.const_cost) * boolToRat (a < c.lower_bound) +
        (a - c.upper_bound + c.const_cost) * boolToRat (a > c.upper_bound)) =
      (fun a => c.func.apply
        ((if a < c.lower_bound then c.lower_bound - a + c.const_cost else 0) +
         (if c.upper_bound < a then a - c.upper_bound + c.const_cost else 0)))
      from funext fun a => ?_]
    · ring
    · simp only [Function.comp]
      congr 1
      unfold boolToRat
      split <;> split <;> ring
  refine ⟨hkey, fun hconst hscale => ⟨fun hin => ?_, fun hout => ?_⟩⟩
  · rw [hkey, hscale]
    have hz : ∀ x ∈ action.map (fun a =>
        c.func.apply
          ((if a < c.lower_bound then c.lower_bound - a + c.const_cost else 0) +
           (if c.upper_bound < a then a - c.upper_bound + c.const_cost else 0))), x = 0 := by
      intro x hx
      obtain ⟨a, ha, rfl⟩ := List.mem_map.mp hx
      obtain ⟨hl, hu⟩ := hin a ha
      rw [if_neg (not_lt.mpr hl), if_neg (not_lt.mpr hu)]
      simpa using FuncType.apply_zero c.func
    rw [List.sum_eq_zero hz]
    ring
  · rw [hkey, hscale]
    obtain ⟨a, ha, hout⟩ := hout
    set f : ℚ → ℚ := fun a =>
      c.func.apply
        ((if a < c.lower_bound then c.lower_bound - a + c.const_cost else 0) +
         (if c.upper_bound < a then a - c.upper_bound + c.const_cost else 0)) with hf
    have hnonneg : ∀ x ∈ action.map f, 0 ≤ x := by
      intro x hx
      obtain ⟨b, _, rfl⟩ := List.mem_map.mp hx
      exact FuncType.apply_nonneg c.func _
    have harg : 0 < (if a < c.lower_bound then c.lower_bound - a + c.const_cost else 0) +
        (if c.upper_bound < a then a - c.upper_bound + c.const_cost else 0) := by
      rw [hconst]
      rcases hout with h | h <;>
        by_cases h2 : a < c.lower_bound <;> by_cases h3 : c.upper_bound < a <;>
        simp [h2, h3] <;> linarith
    have hterm : 0 < f a := FuncType.apply_pos c.func _ (ne_of_gt harg)
    have hmem : f a ∈ action.map f := List.mem_map_of_mem f ha
    have hsum : f a ≤ (action.map f).sum := List.single_le_sum hnonneg _ hmem
    have : 0 < (action.map f).sum := lt_of_lt_of_le hterm hsum
    linarith

/-- Closed instance of `outOfBoundsActionCost_spec`: bounds `[0, 1]`,
`abs` penalty, action `[2]` is strictly out of bounds and penalised. -/
theorem outOfBoundsActionCost_spec_witness :
    OutOfBoundsActionCost.call ⟨0, 1, 1, 0, FuncType.abs⟩ [] [2] [] false < 0 :=
  ((outOfBoundsActionCost_spec ⟨0, 1, 1, 0, FuncType.abs⟩ [] [2] [] false).2
    rfl rfl).2 ⟨2, by decide, Or.inr (by norm_num)⟩

/-- C8: `ActionCost.call` returns
`-reward_scale * Σ func(action - action_mean)`; with mean `[0, 0]`,
scale `1`, `abs` penalty, action `[1, -1]` it returns exactly `-2`. -/
theorem actionCost_spec (c : ActionCost)
    (state action next_state : List ℚ) (absorbing : Bool) :
    (c.call state action next_state absorbing =
      -(c.reward_scale *
        ((action.zipWith (fun a m => c.func.apply (a - m)) c.action_mean)).sum))
    ∧ ActionCost.call ⟨[0, 0], 1, FuncType.abs⟩ state [1, -1] next_state absorbing = -2 := by
  constructor
  · unfold ActionCost.call
    rw [List.map_zipWith]
    ring
  · simp [ActionCost.call, FuncType.apply]
    norm_num

/-- C6: `InBoundsBonus.call` awards `bonus_val` exactly for the action
components strictly inside `(lower_bound, upper_bound)` (components equal
to a bound receive nothing) and returns `reward_scale` times the summed
bonuses; the instance with bounds `(0, 1)`, `bonus_val = 1`,
`reward_scale = 1` and action `[0.5, 1.5]` returns `1`. -/
theorem inBoundsBonus_spec (c : InBoundsBonus)
    (state action next_state : List ℚ) (absorbing : Bool) :
    (c.call state action next_state absorbing =
      c.reward_scale * (c.bonus_val *
        (action.countP (fun a => decide (c.lower_bound < a) && decide (a < c.upper_bound)) : ℚ)))
    ∧ InBoundsBonus.call ⟨0, 1, 1, 1⟩ state [1/2, 3/2] next_state absorbing = 1 := by
  constructor
  · unfold InBoundsBonus.call
    dsimp only
    rw [show (fun a => c.bonus_val * (boolToRat (c.upper_bound > a) * boolToRat (a > c.lower_bound)))
        = (fun a => c.bonus_val * (boolToRat (c.lower_bound < a) * boolToRat (a < c.upper_bound)))
      from ?_]
    · rw [sum_map_indicator]
    · funext a
      unfold boolToRat
      by_cases h1 : c.lower_bound < a <;> by_cases h2 : a < c.upper_bound <;>
        simp [h1, h2, gt_iff_lt]
  · simp [InBoundsBonus.call, boolToRat]
    norm_num

/-- C3: every penalty-function selector other than `'abs'` and `'squared'`
makes the constructors of `OutOfBoundsActionCost`, `ActionCost` and
`ModulationDifferencePenalty` fail at construction time with the
descriptive error the source raises; no silent default occurs. -/
theorem constructors_reject_bad_func_type (func_type : String)
    (h1 : func_type ≠ "abs") (h2 : func_type ≠ "squared")
    (lb ub rs cc : ℚ) (mean : List ℚ) (preds : List (List ℚ → ℚ))
    (modu : List ℚ → List ℚ → List ℚ) :
    OutOfBoundsActionCost.mk? lb ub rs cc func_type =
        .error (func_type ++ " is not a valid function type!")
    ∧ ActionCost.mk? mean rs func_type =
        .error (func_type ++ " is not a valid function type!")
    ∧ ModulationDifferencePenalty.mk? preds modu rs func_type =
        .error (func_type ++ " is not a valid function type!") := by
  refine ⟨?_, ?_, ?_⟩ <;>
    simp [OutOfBoundsActionCost.mk?, ActionCost.mk?, ModulationDifferencePenalty.mk?,
      resolveFuncType, h1, h2, Except.map]

/-- Closed instance of `constructors_reject_bad_func_type` at the
selector string `bogus`. -/
theorem constructors_reject_bad_func_type_witness :
    OutOfBoundsActionCost.mk? 0 1 1 0 "bogus" =
        .error ("bogus" ++ " is not a valid function type!")
    ∧ ActionCost.mk? [] 1 "bogus" =
        .error ("bogus" ++ " is not a valid function type!")
    ∧ ModulationDifferencePenalty.mk? [] (fun a _ => a) 1 "bogus" =
        .error ("bogus" ++ " is not a valid function type!") :=
  constructors_reject_bad_func_type "bogus" (by decide) (by decide)
    0 1 1 0 [] [] (fun a _ => a)

/-- C5: each `ModulationDifferencePenalty.call` overwrites the cached
cycle-progress state with the predictors' outputs (in order) on the
current observation; the reward equals
`-reward_scale * Σ func(action - modulate_action(action, cycle_progress))`;
and two successive calls whose observations give different predictor
outputs visibly change the cached state between the calls. -/
theorem modulationDifferencePenalty_spec (c : ModulationDifferencePenalty)
    (state state2 action action2 next_state next_state2 : List ℚ)
    (absorbing absorbing2 : Bool) :
    ((c.call state action next_state absorbing).2.cycle_progress =
        c.cycle_percentage_predictors.map (fun channel => channel state))
    ∧ ((c.call state action next_state absorbing).1 =
        -(c.reward_scale *
          ((action.zipWith (· - ·)
              (c.action_space_modulator action
                (c.cycle_percentage_predictors.map (fun channel => channel state)))).map
            c.func.apply).sum))
    ∧ (c.cycle_percentage_predictors.map (fun channel => channel state) ≠
         c.cycle_percentage_predictors.map (fun channel => channel state2) →
        (((c.call state action next_state absorbing).2.call state2 action2
            next_state2 absorbing2).2.cycle_progress ≠
          (c.call state action next_state absorbing).2.cycle_progress)) := by
  refine ⟨rfl, ?_, fun hne => ?_⟩
  · unfold ModulationDifferencePenalty.call
    dsimp only
    ring
  · unfold ModulationDifferencePenalty.call
    dsimp only
    exact fun h => hne h.symm

/-- Closed instance of `modulationDifferencePenalty_spec`: a head-reading
predictor makes the cached state after observing `[1]` differ from the
cached state after observing `[0]`. -/
theorem modulationDifferencePenalty_spec_witness :
    ((ModulationDifferencePenalty.call
        ⟨[fun st => st.headD 0], fun a _ => a, [0], 1, FuncType.abs⟩
        [0] [] [] false).2.call [1] [] [] false).2.cycle_progress ≠
      (ModulationDifferencePenalty.call
        ⟨[fun st => st.headD 0], fun a _ => a, [0], 1, FuncType.abs⟩
        [0] [] [] false).2.cycle_progress :=
  (modulationDifferencePenalty_spec
    ⟨[fun st => st.headD 0], fun a _ => a, [0], 1, FuncType.abs⟩
    [0] [1] [] [] [] [] false false).2.2 (by decide)

/-- C9: `reset_state` is the inherited no-op on every built-in variant:
it leaves the whole strategy value unchanged, and in particular does not
clear `ModulationDifferencePenalty`'s cached cycle-progress vector. -/
theorem reset_state_spec :
    (∀ c : NoReward, c.reset_state = c)
    ∧ (∀ c : PosReward, c.reset_state = c)
    ∧ (∀ c : CustomReward, c.reset_state = c)
    ∧ (∀ c : TargetVelocityReward, c.reset_state = c)
    ∧ (∀ c : MultiTargetVelocityReward, c.reset_state = c)
    ∧ (∀ c : VelocityVectorReward, c.reset_state = c)
    ∧ (∀ c : OutOfBoundsActionCost, c.reset_state = c)
    ∧ (∀ c : ActionCost, c.reset_state = c)
    ∧ (∀ c : InBoundsBonus, c.reset_state = c)
    ∧ (∀ c : ModulationDifferencePenalty,
        c.reset_state = c ∧ c.reset_state.cycle_progress = c.cycle_progress) :=
  ⟨fun _ => rfl, fun _ => rfl, fun _ => rfl, fun _ => rfl, fun _ => rfl,
   fun _ => rfl, fun _ => rfl, fun _ => rfl, fun _ => rfl,
   fun _ => ⟨rfl, rfl⟩⟩

/-- C10: the `absorbing` flag never influences any built-in variant: two
calls differing only in that flag return the same reward and (for the
stateful variant) the same updated state. -/
theorem absorbing_flag_irrelevant :
    (∀ (c : NoReward) (s a n : List ℚ) (b1 b2 : Bool),
        c.call s a n b1 = c.call s a n b2)
    ∧ (∀ (c : PosReward) (s a n : List ℚ) (b1 b2 : Bool),
        c.call s a n b1 = c.call s a n b2)
    ∧ (∀ (c : CustomReward) (s a n : List ℚ) (b1 b2 : Bool),
        c.call s a n b1 = c.call s a n b2)
    ∧ (∀ (c : TargetVelocityReward) (s a n : List ℝ) (b1 b2 : Bool),
        c.call s a n b1 = c.call s a n b2)
    ∧ (∀ (c : MultiTargetVelocityReward) (s a n : List ℝ) (b1 b2 : Bool),
        c.call s a n b1 = c.call s a n b2)
    ∧ (∀ (m2a : List ℝ → ℝ) (c : VelocityVectorReward) (s a n : List ℝ) (b1 b2 : Bool),
        VelocityVectorReward.call m2a c s a n b1 = VelocityVectorReward.call m2a c s a n b2)
    ∧ (∀ (c : OutOfBoundsActionCost) (s a n : List ℚ) (b1 b2 : Bool),
        c.call s a n b1 = c.call s a n b2)
    ∧ (∀ (c : ActionCost) (s a n : List ℚ) (b1 b2 : Bool),
        c.call s a n b1 = c.call s a n b2)
    ∧ (∀ (c : InBoundsBonus) (s a n : List ℚ) (b1 b2 : Bool),
        c.call s a n b1 = c.call s a n b2)
    ∧ (∀ (c : ModulationDifferencePenalty) (s a n : List ℚ) (b1 b2 : Bool),
        c.call s a n b1 = c.call s a n b2) :=
  ⟨fun _ _ _ _ _ _ => rfl, fun _ _ _ _ _ _ => rfl, fun _ _ _ _ _ _ => rfl,
   fun _ _ _ _ _ _ => rfl, fun _ _ _ _ _ _ => rfl, fun _ _ _ _ _ _ _ => rfl,
   fun _ _ _ _ _ _ => rfl, fun _ _ _ _ _ _ => rfl, fun _ _ _ _ _ _ => rfl,
   fun _ _ _ _ _ _ => rfl⟩

/-- Packing a bit vector of length at most 8 fills the single byte from
the most significant bit down, so the byte is the big-endian value shifted
into the high bits. -/
theorem packbitsByte_eq_bigEndianVal (bits : List ℕ) (h8 : bits.length ≤ 8)
    (hbin : ∀ b ∈ bits, b ≤ 1) :
    packbitsByte bits = bigEndianVal bits * 2 ^ (8 - bits.length) := by
  rcases bits with _ | ⟨a, _ | ⟨b, _ | ⟨c, _ | ⟨d, _ | ⟨e, _ | ⟨f, _ | ⟨g, _ | ⟨h, _ | ⟨i, t⟩⟩⟩⟩⟩⟩⟩⟩⟩ <;>
    simp_all [packbitsByte, bigEndianVal, List.enum_cons, List.enumFrom] <;>
    omega

/-- Env-id entries are packed as single bits. -/
theorem envBit_le_one (x : ℝ) : envBit x ≤ 1 := by
  unfold envBit
  split <;> norm_num

/-- The byte-packing decoding is the big-endian value for at most 8 bits. -/
theorem decodeBits_eq_bigEndianVal (bits : List ℕ) (h8 : bits.length ≤ 8)
    (hbin : ∀ b ∈ bits, b ≤ 1) : decodeBits bits = bigEndianVal bits := by
  rw [decodeBits, packbitsByte_eq_bigEndianVal bits h8 hbin,
    Nat.shiftRight_eq_div_pow, Nat.mul_div_cancel _ (Nat.pos_pow_of_pos _ (by norm_num))]

/-- C2: the packbits-then-shift decoding of the trailing env-id bits is
their big-endian (most-significant-bit-first) integer value whenever
`1 ≤ envIdLen ≤ 8`; in that regime `MultiTargetVelocityReward.call`
rewards `exp(-(v_x - target * scalings[ind])^2)` with `ind` that
big-endian value; and with `env_id_len = 2` and `scalings = [1, 2, 3, 4]`
an observation ending in the env-id bit vector `[1, 0]` decodes index `2`
and rewards against the target velocity scaled by `3`. -/
theorem multiTargetVelocityReward_spec :
    (∀ bits : List ℕ, 1 ≤ bits.length → bits.length ≤ 8 → (∀ b ∈ bits, b ≤ 1) →
       decodeBits bits = bigEndianVal bits)
    ∧ (∀ (c : MultiTargetVelocityReward) (state action next_state : List ℝ)
          (absorbing : Bool), 1 ≤ c.env_id_len → c.env_id_len ≤ 8 →
          c.env_id_len ≤ state.length →
        c.call state action next_state absorbing =
          Real.exp (-((state.getD c.x_vel_idx 0 -
            c.target_vel * c.scalings.getD
              (bigEndianVal ((state.drop (state.length - c.env_id_len)).map envBit)) 0) ^ 2)))
    ∧ (∀ (vx target : ℝ) (action next_state : List ℝ) (absorbing : Bool),
        MultiTargetVelocityReward.call ⟨target, 2, [1, 2, 3, 4], 0⟩
            [vx, 1, 0] action next_state absorbing =
          Real.exp (-((vx - target * 3) ^ 2))) := by
  refine ⟨fun bits _h1 h8 hbin => decodeBits_eq_bigEndianVal bits h8 hbin,
    fun c state action next_state absorbing h1 h8 hlen => ?_,
    fun vx target action next_state absorbing => ?_⟩
  · unfold MultiTargetVelocityReward.call
    dsimp only
    rw [if_neg (by omega : ¬ c.env_id_len = 0)]
    rw [decodeBits_eq_bigEndianVal _ (by simp; omega)
      (fun b hb => by obtain ⟨x, _, rfl⟩ := List.mem_map.mp hb; exact envBit_le_one x)]
  · unfold MultiTargetVelocityReward.call
    norm_num [decodeBits, packbitsByte, bigEndianVal, envBit, truncToInt,
      List.enum_cons, List.enumFrom]
    norm_num [Nat.shiftRight_eq_div_pow]

/-- Closed instance of `multiTargetVelocityReward_spec`: the bit vector
`[1, 0]` decodes to `2`. -/
theorem multiTargetVelocityReward_spec_witness :
    decodeBits [1, 0] = bigEndianVal [1, 0] :=
  multiTargetVelocityReward_spec.1 [1, 0] (by decide) (by decide) (by decide)

/-- C4: `TargetVelocityReward.call` returns `exp(-(v - target)^2)` for the
observation's velocity entry `v`; this is exactly `1` when `v = target`,
lies strictly between `0` and `1` otherwise, and strictly decreases as
`|v - target|` grows. -/
theorem targetVelocityReward_spec (c : TargetVelocityReward)
    (state action next_state : List ℝ) (absorbing : Bool) :
    (c.call state action next_state absorbing =
        Real.exp (-((state.getD c.x_vel_idx 0 - c.target_vel) ^ 2)))
    ∧ (state.getD c.x_vel_idx 0 = c.target_vel →
        c.call state action next_state absorbing = 1)
    ∧ (state.getD c.x_vel_idx 0 ≠ c.target_vel →
        0 < c.call state action next_state absorbing ∧
          c.call state action next_state absorbing < 1)
    ∧ (∀ state2 : List ℝ,
        |state.getD c.x_vel_idx 0 - c.target_vel| <
            |state2.getD c.x_vel_idx 0 - c.target_vel| →
          c.call state2 action next_state absorbing <
            c.call state action next_state absorbing) := by
  refine ⟨rfl, fun heq => ?_, fun hne => ⟨Real.exp_pos _, ?_⟩, fun state2 hlt => ?_⟩
  · unfold TargetVelocityReward.call
    dsimp only
    rw [heq]
    simp
  · unfold TargetVelocityReward.call
    dsimp only
    rw [Real.exp_lt_one_iff, neg_lt, neg_zero]
    exact sq_pos_of_ne_zero (sub_ne_zero.mpr hne)
  · unfold TargetVelocityReward.call
    dsimp only
    rw [Real.exp_lt_exp, neg_lt_neg_iff]
    calc (state.getD c.x_vel_idx 0 - c.target_vel) ^ 2
        = |state.getD c.x_vel_idx 0 - c.target_vel| ^ 2 := (sq_abs _).symm
      _ < |state2.getD c.x_vel_idx 0 - c.target_vel| ^ 2 :=
          pow_lt_pow_left₀ hlt (abs_nonneg _) (by norm_num)
      _ = (state2.getD c.x_vel_idx 0 - c.target_vel) ^ 2 := sq_abs _

/-- Closed instance of `targetVelocityReward_spec`: at the target
velocity the reward is exactly `1`. -/
theorem targetVelocityReward_spec_witness :
    TargetVelocityReward.call ⟨1, 0⟩ [1] [] [] false = 1 :=
  (targetVelocityReward_spec ⟨1, 0⟩ [1] [] [] false).2.1 rfl

/-- C7: `VelocityVectorReward.call` returns
`exp(-5 * ||(v_x, v_y) - desired||₂)` where the desired planar velocity is
`speed * (cos θ, sin θ)` and `θ` is the external planar angle of the
gathered rotation-matrix entries minus `π/2`. -/
theorem velocityVectorReward_spec (mat2angle_xy : List ℝ → ℝ)
    (c : VelocityVectorReward) (state action next_state : List ℝ)
    (absorbing : Bool) :
    VelocityVectorReward.call mat2angle_xy c state action next_state absorbing =
      Real.exp (-5 * Real.sqrt
        ((state.getD c.x_vel_idx 0 -
            state.getD c.goal_vel_idx 0 *
              Real.cos (mat2angle_xy (c.rot_mat_idx.map (fun i => state.getD i 0)) -
                Real.pi / 2)) ^ 2 +
         (state.getD c.y_vel_idx 0 -
            state.getD c.goal_vel_idx 0 *
              Real.sin (mat2angle_xy (c.rot_mat_idx.map (fun i => state.getD i 0)) -
                Real.pi / 2)) ^ 2)) := by
  unfold VelocityVectorReward.call norm2
  norm_num
